import Mathlib

/-!
Verification of the proxify page logic.

This file contains a shallow embedding of the request pipeline in
src/app.js (URL validation, archive request construction, cache-first
fetching, sanitized rendering, error reporting) and of the CORS rewrite
service worker in src/service-worker.js, together with theorems settling
the specification claims about them.

Platform facilities (the WHATWG URL parser, the network, the HTML parser,
presence of the content container element) are passed in as explicit
parameters, so every embedded function is a pure, executable Lean
definition; the repository code itself is translated line by line.
-/

namespace Proxify

/-- Boolean test that the string s begins with the string pre, decided on
the underlying character lists. -/
def strStartsWith (s pre : String) : Bool := decide (pre.data <+: s.data)

/-- Boolean substring test, modelling the JavaScript includes method on
strings, decided on the underlying character lists. -/
def strContains (s sub : String) : Bool := decide (sub.data <:+: s.data)

/-- Record produced by the WHATWG URL constructor, restricted to the two
fields the application reads: the protocol (scheme followed by a colon,
for example "https:") and the serialized, normalized href. -/
structure URLRecord where
  protocol : String
  href : String
deriving DecidableEq

/-- JavaScript Error value as the pipeline uses it: an optional string
code (set by the throwing stage) and an optional numeric status. A
platform-thrown error, such as a TypeError from the URL constructor or a
network failure from fetch, carries no code. -/
structure JSErr where
  code : Option String := none
  status : Option Nat := none
deriving DecidableEq

instance : DecidableEq (Except JSErr String) := fun a b => by
  cases a with
  | error x =>
    cases b with
    | error y =>
      exact if h : x = y then isTrue (by rw [h])
        else isFalse (by intro hc; injection hc; contradiction)
    | ok y => exact isFalse (by intro hc; exact Except.noConfusion hc)
  | ok x =>
    cases b with
    | error y => exact isFalse (by intro hc; exact Except.noConfusion hc)
    | ok y =>
      exact if h : x = y then isTrue (by rw [h])
        else isFalse (by intro hc; injection hc; contradiction)

/-- JavaScript truthiness fallback, modelling the expression
code || fallback: both a missing code and an empty-string code select the
fallback value. -/
def jsOrCode (c : Option String) (fallback : String) : String :=
  match c with
  | none => fallback
  | some s => if s = "" then fallback else s

/-- validateUrl from src/app.js lines 64-80, parameterized by the
platform URL parser (none models a constructor throw). The catch block
stamps the code invalid_url onto errors that carry no code, so a parse
failure surfaces as invalid_url while the protocol check throws an error
already carrying invalid_protocol, which is rethrown unchanged. The
protocol test is the literal source test: the protocol string merely has
to start with "http". -/
def validateUrl (parse : String → Option URLRecord) (input : String) :
    Except JSErr String :=
  match parse input with
  | none => .error { code := some "invalid_url" }
  | some u =>
    if strStartsWith u.protocol "http" then .ok u.href
    else .error { code := some "invalid_protocol" }

/-- Characters left unescaped by the JavaScript encodeURIComponent
function: letters, digits, and - _ . ! ~ * ( ) together with the
apostrophe (code point 39). -/
def isUnescapedURI (c : Char) : Bool :=
  c.isAlphanum || c = '-' || c = '_' || c = '.' || c = '!' || c = '~' ||
    c = '*' || c = Char.ofNat 39 || c = '(' || c = ')'

/-- Uppercase hexadecimal digit for a value below 16. -/
def hexDigit (n : Nat) : Char :=
  if n < 10 then Char.ofNat (48 + n) else Char.ofNat (55 + n)

/-- UTF-8 byte sequence of a character, as a list of byte values. -/
def utf8Bytes (c : Char) : List Nat :=
  let n := c.toNat
  if n < 128 then [n]
  else if n < 2048 then [192 + n / 64, 128 + n % 64]
  else if n < 65536 then
    [224 + n / 4096, 128 + (n / 64) % 64, 128 + n % 64]
  else
    [240 + n / 262144, 128 + (n / 4096) % 64, 128 + (n / 64) % 64,
      128 + n % 64]

/-- Percent-encoding of one byte, as the three characters of %XY. -/
def pctByte (b : Nat) : List Char := ['%', hexDigit (b / 16), hexDigit (b % 16)]

/-- The JavaScript encodeURIComponent function: every character outside
the unescaped set is replaced by the percent-encoding of its UTF-8
bytes. -/
def encodeURIComponent (s : String) : String :=
  ⟨s.data.foldr
    (fun c acc =>
      (if isUnescapedURI c then [c]
       else (utf8Bytes c).foldr (fun b a => pctByte b ++ a) []) ++ acc)
    []⟩

/-- buildArchiveUrl from src/app.js lines 96-99: the archive service base
followed by the percent-encoded validated URL. -/
def buildArchiveUrl (url : String) : String :=
  "https://archive.today/?run=1&url=" ++ encodeURIComponent url

/-- Response visible to the page: status, status text, header list and
body text. The ok flag of the platform Response object is derived from
the status below. -/
structure NetResponse where
  status : Nat
  statusText : String
  headers : List (String × String)
  body : String
deriving DecidableEq

/-- The ok accessor of a platform Response: status in the 200-299
range. -/
def respOk (r : NetResponse) : Bool := decide (200 ≤ r.status ∧ r.status ≤ 299)

/-- ASCII lowercasing of a string, character by character: header names
are compared ASCII-case-insensitively. -/
def lowerStr (s : String) : String := ⟨s.data.map Char.toLower⟩

/-- Headers.get: case-insensitive lookup of the first header with the
given name. -/
def headerGet (hs : List (String × String)) (nm : String) : Option String :=
  (hs.find? (fun p => lowerStr p.1 == lowerStr nm)).map (fun p => p.2)

/-- Headers.set: drop every header whose name matches case-insensitively,
then add the new pair. -/
def headerSet (hs : List (String × String)) (nm v : String) :
    List (String × String) :=
  (hs.filter (fun p => !(lowerStr p.1 == lowerStr nm))) ++ [(nm, v)]

/-- fetchArchiveContent from src/app.js lines 113-138, parameterized by
the network (an error models a rejected fetch, carrying no code). The
status check runs first and throws http_error with the numeric status;
then a missing content-type header, or one that does not contain the
substring text/html, throws invalid_content; otherwise the body text is
returned. The catch block only logs and rethrows, so it is the
identity on errors. -/
def fetchArchiveContent (network : String → Except JSErr NetResponse)
    (url : String) : Except JSErr String :=
  match network url with
  | .error e => .error e
  | .ok r =>
    if respOk r then
      match headerGet r.headers "content-type" with
      | none => .error { code := some "invalid_content" }
      | some ct =>
        if strContains ct "text/html" then .ok r.body
        else .error { code := some "invalid_content" }
    else .error { code := some "http_error", status := some r.status }

/-- Value stored in the cache: the Response object built by
cacheResponse. The constructor new Response(content) produces a fresh
response whose body is the given text, whose status is the default 200
with empty status text, and whose only header is the content type the
platform attaches to a text body. The original network response's
status, status text and headers are not part of it. -/
structure StoredResponse where
  body : String
  status : Nat
  statusText : String
  headers : List (String × String)
deriving DecidableEq

/-- The snapshot cacheResponse builds from a body text via
new Response(content). -/
def storedOf (content : String) : StoredResponse :=
  { body := content, status := 200, statusText := "",
    headers := [("content-type", "text/plain;charset=UTF-8")] }

/-- The named cache store archive-v1, keyed by exact request URL string.
A put prepends the pair; lookup returns the first match, so a put always
replaces the visible entry for its key. -/
def Cache := List (String × StoredResponse)

/-- cache.put: store a snapshot under the key. -/
def cachePut (c : Cache) (url : String) (st : StoredResponse) : Cache :=
  (url, st) :: c

/-- cache.match: exact-key lookup, getCachedResponse from src/app.js. -/
def cacheMatch (c : Cache) (url : String) : Option StoredResponse :=
  List.lookup url c

/-- Observable actions of one fetchWithCache run, in order: the cache
lookup (with its outcome), a network call, a cache write. -/
inductive Ev where
  | cacheLookup (url : String) (hit : Bool)
  | netCall (url : String)
  | cachePut (url : String)
deriving DecidableEq

/-- Number of network calls recorded in a trace. -/
def countNet (tr : List Ev) : Nat :=
  tr.countP (fun e => match e with | .netCall _ => true | _ => false)

/-- fetchWithCache from src/app.js lines 249-257: look the URL up in the
cache first and return the stored body on a hit; only on a miss call
fetchArchiveContent, and on success store the body as a fresh snapshot
under the same key before returning it. The result carries the returned
value or error, the cache after the run, and the trace of actions in
execution order. -/
def fetchWithCache (network : String → Except JSErr NetResponse)
    (c : Cache) (url : String) :
    Except JSErr String × Cache × List Ev :=
  match cacheMatch c url with
  | some st => (.ok st.body, c, [.cacheLookup url true])
  | none =>
    match fetchArchiveContent network url with
    | .error e => (.error e, c, [.cacheLookup url false, .netCall url])
    | .ok body =>
      (.ok body, cachePut c url (storedOf body),
        [.cacheLookup url false, .netCall url, .cachePut url])

/-! Sanitizer and renderer. -/

mutual
/-- Node of the parsed HTML fragment: an element with lowercase tag name,
attribute list and child forest, or a text node. -/
inductive HNode where
  | elem (tag : String) (attrs : List (String × String)) (children : HForest)
  | text (s : String)
/-- Ordered forest of sibling nodes of the parsed fragment. -/
inductive HForest where
  | nil
  | cons (head : HNode) (tail : HForest)
end

/-- Attribute lookup on an element (parser output uses lowercase
names). -/
def attrGet (attrs : List (String × String)) (nm : String) : Option String :=
  (attrs.find? (fun p => p.1 == nm)).map (fun p => p.2)

/-- The removal set of renderContentSafely: the selector script, and the
selector list style, link[rel="stylesheet"]. -/
def isBanned (tag : String) (attrs : List (String × String)) : Bool :=
  tag == "script" || tag == "style" ||
    (tag == "link" && attrGet attrs "rel" == some "stylesheet")

/-- Element descriptor: tag and attributes, as collected in document
order. -/
def isBannedE (e : String × List (String × String)) : Bool :=
  isBanned e.1 e.2

/-- The DOM mutation performed by renderContentSafely lines 154-159:
every node matched by the removal selectors is detached, together with
its subtree, from the fragment; all remaining nodes stay in place. -/
def sanitizeF : HForest → HForest
  | .nil => .nil
  | .cons (.text s) r => .cons (.text s) (sanitizeF r)
  | .cons (.elem t a c) r =>
    if isBanned t a then sanitizeF r
    else .cons (.elem t a (sanitizeF c)) (sanitizeF r)

/-- All element descriptors of a forest in document (preorder) order. -/
def elemsF : HForest → List (String × List (String × String))
  | .nil => []
  | .cons (.text _) r => elemsF r
  | .cons (.elem t a c) r => (t, a) :: (elemsF c ++ elemsF r)

/-- Invariant of HTML-parser output: a banned node (script, style, or
stylesheet link) contains no element nodes, since script and style hold
only raw text and link is a void element. -/
def bannedChildless : HForest → Bool
  | .nil => true
  | .cons (.text _) r => bannedChildless r
  | .cons (.elem t a c) r =>
    (if isBanned t a then decide (elemsF c = []) else bannedChildless c) &&
      bannedChildless r

/-! Error reporter. -/

/-- ERROR_MAP from src/app.js lines 169-176. -/
def ERROR_MAP : List (String × String) :=
  [("missing_url", "Please provide a URL parameter in the query string"),
   ("invalid_protocol", "Only HTTP/HTTPS URLs are supported"),
   ("invalid_url", "The provided URL is invalid"),
   ("network_error", "Failed to retrieve archived content"),
   ("invalid_content", "The response contained unexpected content"),
   ("http_error", "HTTP error occurred while fetching content")]

/-- Message selection in displayError: the mapped message, or the generic
fallback for unknown codes. -/
def errMessage (code : String) : String :=
  (List.lookup code ERROR_MAP).getD "An unknown error occurred"

/-- escapeHTML character replacement table from src/app.js lines
184-195. -/
def escChar (c : Char) : List Char :=
  if c = '&' then ['&', 'a', 'm', 'p', ';']
  else if c = '<' then ['&', 'l', 't', ';']
  else if c = '>' then ['&', 'g', 't', ';']
  else if c = Char.ofNat 39 then ['&', '#', '3', '9', ';']
  else if c = Char.ofNat 34 then ['&', 'q', 'u', 'o', 't', ';']
  else [c]

/-- escapeHTML on the character list: global replacement of the five
special characters. -/
def escList : List Char → List Char
  | [] => []
  | c :: r => escChar c ++ escList r

/-- escapeHTML from src/app.js lines 184-195. -/
def escapeHTML (s : String) : String := ⟨escList s.data⟩

/-- The optional URL segment of the error block template: present only
when details.url is truthy, that is present and non-empty. -/
def urlSegment : Option String → String
  | some u =>
    if u = "" then "" else "<br><strong>URL:</strong> " ++ escapeHTML u
  | none => ""

/-- The innerHTML string built by displayError, src/app.js lines 217-221:
the template literal with code, message and optional URL inserted, each
passed through escapeHTML. -/
def displayErrorHTML (code : String) (urlOpt : Option String) : String :=
  "\n        <strong>Error:</strong> " ++
    (escapeHTML code ++
      ("<br>\n        <span>" ++
        (escapeHTML (errMessage code) ++
          ("</span>\n        " ++ (urlSegment urlOpt ++ "\n    ")))))

/-! The orchestrator. -/

/-- Item appended to the content region: a sanitized content container or
an error block with its innerHTML. -/
inductive Block where
  | content (fragment : HForest)
  | errorBlock (html : String)

/-- Observable result of one page load: the Error Reporter invocations
(code and optional context URL), the blocks appended to the content
region, and the number of network calls made. -/
structure AppRun where
  reporterCalls : List (String × Option String)
  blocks : List Block
  netCalls : Nat

/-- One displayError invocation, src/app.js lines 213-228: the reporter
is always invoked; the block is appended only when the content container
element exists. -/
def errorRun (code : String) (urlOpt : Option String) (dom : Bool)
    (n : Nat) : AppRun :=
  { reporterCalls := [(code, urlOpt)],
    blocks := if dom then [Block.errorBlock (displayErrorHTML code urlOpt)] else [],
    netCalls := n }

/-- renderContentSafely from src/app.js lines 145-167, parameterized by
the HTML parser: empty input is a silent no-op; otherwise the parsed
fragment is sanitized and appended, provided the content container
exists. -/
def renderBlocks (parseHTML : String → HForest) (html : String)
    (dom : Bool) : List Block :=
  if html = "" then []
  else if dom then [Block.content (sanitizeF (parseHTML html))] else []

/-- initializeApp from src/app.js lines 11-50, parameterized by the
platform URL parser, the network, the HTML parser, the initial cache and
the presence of the content container. A missing or empty url query
parameter reports missing_url and stops. Otherwise the stages run inside
the single try block; any stage error lands in the catch, which invokes
displayError with the error code (or network_error for a code-less
error) and the original user input as context. -/
def initializeApp (parse : String → Option URLRecord)
    (network : String → Except JSErr NetResponse)
    (parseHTML : String → HForest)
    (cache : Cache) (userUrl : Option String) (dom : Bool) : AppRun :=
  match userUrl with
  | none => errorRun "missing_url" none dom 0
  | some u =>
    if u = "" then errorRun "missing_url" none dom 0
    else
      match validateUrl parse u with
      | .error e => errorRun (jsOrCode e.code "network_error") (some u) dom 0
      | .ok v =>
        match fetchWithCache network cache (buildArchiveUrl v) with
        | (.error e, _, tr) =>
          errorRun (jsOrCode e.code "network_error") (some u) dom (countNet tr)
        | (.ok content, _, tr) =>
          { reporterCalls := [],
            blocks := renderBlocks parseHTML content dom,
            netCalls := countNet tr }

/-- Composition of the stages inside the try block, up to the value that
renderContentSafely would receive: the validated URL is built into an
archive request URL and fetched cache-first. -/
def pipelineContent (parse : String → Option URLRecord)
    (network : String → Except JSErr NetResponse)
    (cache : Cache) (u : String) : Except JSErr String :=
  match validateUrl parse u with
  | .error e => .error e
  | .ok v => (fetchWithCache network cache (buildArchiveUrl v)).1

/-! The CORS rewrite service worker, src/service-worker.js. -/

/-- A fetch-event request, restricted to the field the worker reads. -/
structure SWRequest where
  url : String

/-- handleRequest from src/service-worker.js lines 22-32: forward the
request to the network, copy the headers, force the
Access-Control-Allow-Origin header to *, and return a response with the
same body, status and status text under the rewritten headers. -/
def handleRequest (network : SWRequest → NetResponse) (req : SWRequest) :
    NetResponse :=
  let r := network req
  { status := r.status, statusText := r.statusText,
    headers := headerSet r.headers "Access-Control-Allow-Origin" "*",
    body := r.body }

/-- The fetch listener from src/service-worker.js lines 16-20: requests
whose URL starts with the archive origin are answered by handleRequest;
every other event is left to default browser handling (none). -/
def swFetchEvent (network : SWRequest → NetResponse) (req : SWRequest) :
    Option NetResponse :=
  if strStartsWith req.url "https://archive.today/" then
    some (handleRequest network req)
  else none

/-! Helper lemmas. -/

/-- A fetchWithCache run performs at most one network call. -/
theorem countNet_fetchWithCache (network : String → Except JSErr NetResponse)
    (c : Cache) (url : String) :
    countNet (fetchWithCache network c url).2.2 ≤ 1 := by
  unfold fetchWithCache
  cases h : cacheMatch c url with
  | some st => simp [countNet, List.countP_cons]
  | none =>
    cases h2 : fetchArchiveContent network url <;>
      simp [countNet, List.countP_cons]

/-! Claim theorems about the validator. -/

/-- Platform behaviour of the URL constructor on the concrete input
"httpx://example.com/": it parses (httpx is a legal non-special scheme),
with protocol "httpx:" and the serialized href unchanged. -/
def prefixSchemeParse : String → Option URLRecord := fun s =>
  if s = "httpx://example.com/" then
    some { protocol := "httpx:", href := "httpx://example.com/" }
  else none

/-- C1: the claim says the validator never succeeds on a URL whose scheme
is not http or https, but the source tests only that the protocol string
starts with "http", so the scheme httpx - which is neither http nor
https - is accepted and validateUrl returns its href. This contradicts
the error message the code itself maps to invalid_protocol, namely that
only HTTP/HTTPS URLs are supported. -/
theorem c1_validator_accepts_httpx_scheme :
    validateUrl prefixSchemeParse "httpx://example.com/" =
      Except.ok "httpx://example.com/" ∧
    "httpx:" ≠ "http:" ∧ "httpx:" ≠ "https:" := by
  refine ⟨?_, by decide, by decide⟩
  decide

/-- C3: whenever any stage inside the try block fails, the single catch
boundary invokes the Error Reporter exactly once, with the failing
error's code (or network_error when the error carries no code) and the
original user input as context, and the run performed at most one
network call, so nothing was retried. -/
theorem c3_single_catch_reports_failure
    (parse : String → Option URLRecord)
    (network : String → Except JSErr NetResponse)
    (parseHTML : String → HForest) (cache : Cache)
    (u : String) (dom : Bool) (e : JSErr)
    (hu : u ≠ "")
    (hfail : pipelineContent parse network cache u = .error e) :
    (initializeApp parse network parseHTML cache (some u) dom).reporterCalls =
      [(jsOrCode e.code "network_error", some u)] ∧
    (initializeApp parse network parseHTML cache (some u) dom).netCalls ≤ 1 := by
  unfold pipelineContent at hfail
  simp only [initializeApp]
  rw [if_neg hu]
  cases hv : validateUrl parse u with
  | error e2 =>
    simp only [hv, Except.error.injEq] at hfail
    subst hfail
    simp only [hv]
    exact ⟨by simp [errorRun], by simp [errorRun]⟩
  | ok v =>
    simp only [hv] at hfail
    simp only [hv]
    have hcount := countNet_fetchWithCache network cache (buildArchiveUrl v)
    rcases hw : fetchWithCache network cache (buildArchiveUrl v) with ⟨res, c2, tr⟩
    rw [hw] at hfail hcount
    simp only at hfail hcount
    subst hfail
    exact ⟨by simp [errorRun], by simpa [errorRun] using hcount⟩

/-- Concrete scenario for the C3 witness: the platform URL parser throws
on the input, modelling a syntactically invalid URL. -/
def rejectAllParse : String → Option URLRecord := fun _ => none

/-- Witness for C3: on the unparseable input "not a url" the reporter is
invoked exactly once with code invalid_url and the original input as
context. -/
theorem c3_witness :
    (initializeApp rejectAllParse (fun _ => .error {}) (fun _ => .nil) []
        (some "not a url") true).reporterCalls =
      [("invalid_url", some "not a url")] := by
  have h := (c3_single_catch_reports_failure rejectAllParse
    (fun _ => .error {}) (fun _ => .nil) [] "not a url" true
    { code := some "invalid_url" } (by decide) (by decide)).1
  simpa [jsOrCode] using h

/-- C10: the validator is idempotent. The hypothesis hnorm is the WHATWG
URL guarantee that parsing the serialized href of a parse result yields
that same result back. Under it, whenever validateUrl accepts an input
and returns a normalized href, running validateUrl on that href succeeds
and returns the same string. -/
theorem c10_validateUrl_idempotent (parse : String → Option URLRecord)
    (hnorm : ∀ s u, parse s = some u → parse u.href = some u)
    (s h : String)
    (hok : validateUrl parse s = .ok h) :
    validateUrl parse h = .ok h := by
  unfold validateUrl at hok ⊢
  cases hp : parse s with
  | none => simp [hp] at hok
  | some u =>
    simp only [hp] at hok
    by_cases hpr : strStartsWith u.protocol "http" = true
    · simp only [if_pos hpr, Except.ok.injEq] at hok
      subst hok
      simp only [hnorm s u hp, if_pos hpr]
    · simp only [if_neg hpr] at hok
      exact absurd hok (by simp)

/-- Platform behaviour of the URL constructor on the two concrete strings
of the C10 witness: the input without a trailing slash normalizes to the
href with one, and the href parses back to itself. -/
def normalizingParse : String → Option URLRecord := fun s =>
  if s = "https://example.com" ∨ s = "https://example.com/" then
    some { protocol := "https:", href := "https://example.com/" }
  else none

/-- Witness for C10: validating the href returned for
"https://example.com" succeeds and returns it unchanged. -/
theorem c10_witness :
    validateUrl normalizingParse "https://example.com/" =
      Except.ok "https://example.com/" := by
  refine c10_validateUrl_idempotent normalizingParse ?_
    "https://example.com" "https://example.com/" (by decide)
  intro s u hp
  unfold normalizingParse at hp ⊢
  by_cases hs : s = "https://example.com" ∨ s = "https://example.com/"
  · simp only [if_pos hs, Option.some.injEq] at hp
    subst hp
    rw [if_pos (Or.inr rfl)]
  · simp only [if_neg hs] at hp
    exact absurd hp (by simp)

/-! Claim theorems about the fetcher and the cache. -/

/-- C4: starting from a cache with no entry for the key, two sequential
fetchWithCache runs for the same ArchiveRequestURL make exactly one
network call: the first run misses, fetches, returns the body and stores
a cache entry with that body under the exact key; the second run hits
and returns the same body with zero network calls. On each run the first
recorded action is the cache lookup, so the lookup completes before any
network attempt. -/
theorem c4_fetchWithCache_idempotent
    (network : String → Except JSErr NetResponse) (c : Cache)
    (url : String) (resp : NetResponse) (ct : String)
    (hmiss : cacheMatch c url = none)
    (hnet : network url = .ok resp)
    (hok : respOk resp = true)
    (hct : headerGet resp.headers "content-type" = some ct)
    (hhtml : strContains ct "text/html" = true) :
    (fetchWithCache network c url).1 = .ok resp.body ∧
    (fetchWithCache network (fetchWithCache network c url).2.1 url).1 =
      .ok resp.body ∧
    countNet (fetchWithCache network c url).2.2 = 1 ∧
    countNet (fetchWithCache network (fetchWithCache network c url).2.1 url).2.2 = 0 ∧
    (fetchWithCache network c url).2.2.head? =
      some (Ev.cacheLookup url false) ∧
    (fetchWithCache network (fetchWithCache network c url).2.1 url).2.2.head? =
      some (Ev.cacheLookup url true) ∧
    cacheMatch (fetchWithCache network c url).2.1 url =
      some (storedOf resp.body) := by
  have harch : fetchArchiveContent network url = .ok resp.body := by
    unfold fetchArchiveContent
    simp only [hnet, if_pos hok, hct, if_pos hhtml]
  have h1 : fetchWithCache network c url =
      (.ok resp.body, cachePut c url (storedOf resp.body),
        [.cacheLookup url false, .netCall url, .cachePut url]) := by
    unfold fetchWithCache
    simp only [hmiss, harch]
  have hhit : cacheMatch (cachePut c url (storedOf resp.body)) url =
      some (storedOf resp.body) := by
    simp [cacheMatch, cachePut, List.lookup]
  have h2 : fetchWithCache network (cachePut c url (storedOf resp.body)) url =
      (.ok (storedOf resp.body).body, cachePut c url (storedOf resp.body),
        [.cacheLookup url true]) := by
    unfold fetchWithCache
    simp only [hhit]
  refine ⟨?_, ?_, ?_, ?_, ?_, ?_, ?_⟩ <;>
    simp only [h1, h2, hhit] <;>
    simp [storedOf, countNet, List.countP_cons]

/-- Network used by the C4 witness: every request succeeds with an HTML
body. -/
def htmlNetwork : String → Except JSErr NetResponse := fun _ =>
  .ok { status := 200, statusText := "OK",
        headers := [("content-type", "text/html")], body := "<p>hi</p>" }

/-- Witness for C4: on an empty cache the first run returns the fetched
body and the repeat run returns it from the cache. -/
theorem c4_witness :
    (fetchWithCache htmlNetwork [] "https://archive.today/?run=1&url=x").1 =
      .ok "<p>hi</p>" ∧
    (fetchWithCache htmlNetwork
        (fetchWithCache htmlNetwork [] "https://archive.today/?run=1&url=x").2.1
        "https://archive.today/?run=1&url=x").1 = .ok "<p>hi</p>" := by
  have h := c4_fetchWithCache_idempotent htmlNetwork []
    "https://archive.today/?run=1&url=x"
    { status := 200, statusText := "OK",
      headers := [("content-type", "text/html")], body := "<p>hi</p>" }
    "text/html" (by decide) rfl (by decide) (by decide) (by decide)
  exact ⟨h.1, h.2.1⟩

/-- Network that yields a 404 response carrying an HTML content type, for
the C7 counterexample. -/
def notFoundNetwork : String → Except JSErr NetResponse := fun _ =>
  .ok { status := 404, statusText := "Not Found",
        headers := [("content-type", "text/html")], body := "<p>gone</p>" }

/-- C7 counterexample: the claim says that whenever the declared content
type is an HTML media type the body is returned as text, but on a 404
response with content type text/html the fetch fails with http_error
instead, because the status check runs before the content-type check. -/
theorem c7_counterexample :
    headerGet [("content-type", "text/html")] "content-type" =
      some "text/html" ∧
    strContains "text/html" "text/html" = true ∧
    fetchArchiveContent notFoundNetwork "https://archive.today/?run=1&url=x" =
      .error { code := some "http_error", status := some 404 } := by
  refine ⟨by decide, by decide, ?_⟩
  decide

/-- C7 as amended: on the network path, for a response whose status is a
success status, the fetch fails with invalid_content exactly when the
declared content type is missing or does not contain text/html, and
whenever it does contain text/html the body is returned as text. -/
theorem c7_invalid_content_iff
    (network : String → Except JSErr NetResponse) (url : String)
    (resp : NetResponse)
    (hnet : network url = .ok resp)
    (hok : respOk resp = true) :
    (∀ ct, headerGet resp.headers "content-type" = some ct →
      strContains ct "text/html" = true →
      fetchArchiveContent network url = .ok resp.body) ∧
    (fetchArchiveContent network url =
        .error { code := some "invalid_content" } ↔
      ¬ ∃ ct, headerGet resp.headers "content-type" = some ct ∧
        strContains ct "text/html" = true) := by
  unfold fetchArchiveContent
  simp only [hnet, if_pos hok]
  constructor
  · intro ct hct hhtml
    simp only [hct, if_pos hhtml]
  · cases hct : headerGet resp.headers "content-type" with
    | none => simp
    | some ct =>
      by_cases hhtml : strContains ct "text/html" = true
      · simp [if_pos hhtml, hhtml]
      · simp [if_neg hhtml, hhtml]

/-- Witness for C7 as amended: a 200 response with content type
text/html yields its body. -/
theorem c7_witness :
    fetchArchiveContent htmlNetwork "https://archive.today/?run=1&url=x" =
      .ok "<p>hi</p>" := by
  exact (c7_invalid_content_iff htmlNetwork "https://archive.today/?run=1&url=x"
    { status := 200, statusText := "OK",
      headers := [("content-type", "text/html")], body := "<p>hi</p>" }
    rfl (by decide)).1 "text/html" (by decide) (by decide)

/-- Network whose response carries a non-default success status and an
extra header, for the C8 counterexample. -/
def snapshotNetwork : String → Except JSErr NetResponse := fun _ =>
  .ok { status := 201, statusText := "Created",
        headers := [("content-type", "text/html"), ("x-archive", "1")],
        body := "<p>b</p>" }

/-- C8 counterexample: the claim says every cache entry is a full
response snapshot carrying the response's headers and status, but after
fetching a 201 response with an extra x-archive header the stored entry
is a fresh default Response: its status is 200, not 201, and the
x-archive header is gone. -/
theorem c8_counterexample :
    cacheMatch (fetchWithCache snapshotNetwork [] "k").2.1 "k" =
      some { body := "<p>b</p>", status := 200, statusText := "",
             headers := [("content-type", "text/plain;charset=UTF-8")] } ∧
    (200 : Nat) ≠ 201 ∧
    headerGet [("content-type", "text/plain;charset=UTF-8")] "x-archive" =
      none ∧
    headerGet [("content-type", "text/html"), ("x-archive", "1")]
      "x-archive" = some "1" := by
  refine ⟨?_, by decide, by decide, by decide⟩
  decide

/-- C8 as amended: every cache entry the fetcher writes is keyed by the
exact ArchiveRequestURL string and carries the response body text
wrapped in a fresh default Response (status 200, empty status text, the
default text content-type header); the network response's own status,
status text and headers are not stored. -/
theorem c8_cache_entry_shape
    (network : String → Except JSErr NetResponse) (c : Cache)
    (url : String) (resp : NetResponse) (ct : String)
    (hmiss : cacheMatch c url = none)
    (hnet : network url = .ok resp)
    (hok : respOk resp = true)
    (hct : headerGet resp.headers "content-type" = some ct)
    (hhtml : strContains ct "text/html" = true) :
    (fetchWithCache network c url).2.1 =
      (url, { body := resp.body, status := 200, statusText := "",
              headers := [("content-type", "text/plain;charset=UTF-8")] }) ::
        c := by
  have harch : fetchArchiveContent network url = .ok resp.body := by
    unfold fetchArchiveContent
    simp only [hnet, if_pos hok, hct, if_pos hhtml]
  unfold fetchWithCache
  simp only [hmiss, harch]
  rfl

/-- Witness for C8 as amended: the concrete 201 fetch stores exactly the
default-wrapped body under the exact key. -/
theorem c8_witness :
    (fetchWithCache snapshotNetwork [] "k").2.1 =
      [("k", { body := "<p>b</p>", status := 200, statusText := "",
               headers := [("content-type", "text/plain;charset=UTF-8")] })] := by
  exact c8_cache_entry_shape snapshotNetwork [] "k"
    { status := 201, statusText := "Created",
      headers := [("content-type", "text/html"), ("x-archive", "1")],
      body := "<p>b</p>" }
    "text/html" (by decide) rfl (by decide) (by decide) (by decide)

/-! Claim theorems about the orchestrator outcome. -/

/-- Network whose archive response is a success with an HTML content type
but an empty body, for the C2 counterexample. -/
def emptyBodyNetwork : String → Except JSErr NetResponse := fun _ =>
  .ok { status := 200, statusText := "OK",
        headers := [("content-type", "text/html")], body := "" }

/-- Platform URL parser behaviour on the already-normalized input of the
C2 counterexample. -/
def exampleParse : String → Option URLRecord := fun s =>
  if s = "https://example.com/" then
    some { protocol := "https:", href := "https://example.com/" }
  else none

/-- C2 counterexample: the claim says every page load produces exactly
one of RenderedContent or ErrorRecord, but on a valid URL whose archive
fetch succeeds with an empty body the pipeline succeeds, the renderer
treats the empty content as a silent no-op, and nothing at all is
appended: no content block, no error block, and no reporter call, even
though the content container exists. -/
theorem c2_counterexample :
    (initializeApp exampleParse emptyBodyNetwork (fun _ => .nil) []
        (some "https://example.com/") true).blocks = [] ∧
    (initializeApp exampleParse emptyBodyNetwork (fun _ => .nil) []
        (some "https://example.com/") true).reporterCalls = [] := by
  constructor <;> rfl

/-- C2 as amended: each page load appends at most one block to the
content region, never a content block and an error block together; when
the content container is absent nothing is appended; and when it is
present, the load appends nothing exactly when the pipeline succeeded
with empty content (the silent no-op), and otherwise appends exactly
one block. -/
theorem c2_at_most_one_block (parse : String → Option URLRecord)
    (network : String → Except JSErr NetResponse)
    (parseHTML : String → HForest) (cache : Cache)
    (userUrl : Option String) (dom : Bool) :
    (initializeApp parse network parseHTML cache userUrl dom).blocks.length ≤ 1 ∧
    (dom = false →
      (initializeApp parse network parseHTML cache userUrl dom).blocks = []) ∧
    (dom = true →
      ((initializeApp parse network parseHTML cache userUrl dom).blocks = [] ↔
        ∃ u, userUrl = some u ∧ u ≠ "" ∧
          pipelineContent parse network cache u = .ok "")) := by
  cases userUrl with
  | none =>
    simp only [initializeApp]
    refine ⟨by cases dom <;> simp [errorRun], fun hd => by simp [errorRun, hd],
      fun hd => ?_⟩
    simp [errorRun, hd]
  | some u =>
    by_cases hu : u = ""
    · subst hu
      simp only [initializeApp, if_pos rfl]
      refine ⟨by cases dom <;> simp [errorRun], fun hd => by simp [errorRun, hd],
        fun hd => ?_⟩
      simp [errorRun, hd]
    · simp only [initializeApp, if_neg hu]
      cases hv : validateUrl parse u with
      | error e =>
        simp only [hv]
        refine ⟨by cases dom <;> simp [errorRun], fun hd => by simp [errorRun, hd],
          fun hd => ?_⟩
        constructor
        · intro h
          exfalso
          revert h
          simp [errorRun, hd]
        · rintro ⟨u2, hu2, hne, hpc⟩
          rw [Option.some.injEq] at hu2
          subst hu2
          simp only [pipelineContent, hv] at hpc
          exact Except.noConfusion hpc
      | ok v =>
        simp only [hv]
        rcases hw : fetchWithCache network cache (buildArchiveUrl v) with ⟨res, c2, tr⟩
        cases res with
        | error e =>
          refine ⟨by cases dom <;> simp [errorRun], fun hd => by simp [errorRun, hd],
            fun hd => ?_⟩
          constructor
          · intro h
            exfalso
            revert h
            simp [errorRun, hd]
          · rintro ⟨u2, hu2, hne, hpc⟩
            rw [Option.some.injEq] at hu2
            subst hu2
            simp only [pipelineContent, hv, hw] at hpc
            exact Except.noConfusion hpc
        | ok content =>
          have hpc : pipelineContent parse network cache u = .ok content := by
            simp only [pipelineContent, hv, hw]
          refine ⟨?_, fun hd => ?_, fun hd => ?_⟩
          · by_cases hc : content = "" <;> cases dom <;>
              simp [renderBlocks, hc]
          · by_cases hc : content = "" <;> simp [renderBlocks, hc, hd]
          · subst hd
            by_cases hc : content = ""
            · subst hc
              constructor
              · intro _; exact ⟨u, rfl, hu, hpc⟩
              · intro _; simp [renderBlocks]
            · constructor
              · intro h
                exfalso
                revert h
                simp [renderBlocks, hc]
              · rintro ⟨u2, hu2, hne, hpc2⟩
                rw [Option.some.injEq] at hu2
                subst hu2
                rw [hpc] at hpc2
                injection hpc2 with h2
                exact absurd h2 hc

/-- Witness for C2 as amended: on the concrete silent no-op load the
content region stays empty. -/
theorem c2_witness :
    (initializeApp exampleParse emptyBodyNetwork (fun _ => .nil) []
        (some "https://example.com/") true).blocks = [] := by
  refine ((c2_at_most_one_block exampleParse emptyBodyNetwork (fun _ => .nil) []
    (some "https://example.com/") true).2.2 rfl).mpr ?_
  exact ⟨"https://example.com/", rfl, by decide, by decide⟩

/-! Claim theorems about the CORS rewrite worker. -/

/-- Filtering with a predicate that holds wherever the search predicate
holds does not change the result of find?. -/
theorem find?_filter_keep {α : Type} (p q : α → Bool)
    (h : ∀ x, q x = true → p x = true) :
    ∀ l : List α, (l.filter p).find? q = l.find? q
  | [] => rfl
  | a :: t => by
    by_cases hq : q a = true
    · rw [List.filter_cons_of_pos (h a hq), List.find?_cons_of_pos _ hq,
        List.find?_cons_of_pos _ hq]
    · by_cases hp : p a = true
      · rw [List.filter_cons_of_pos hp, List.find?_cons_of_neg _ hq,
          List.find?_cons_of_neg _ hq, find?_filter_keep p q h t]
      · rw [List.filter_cons_of_neg (by simpa using hp),
          List.find?_cons_of_neg _ hq, find?_filter_keep p q h t]

/-- After headerSet, reading the header that was set yields exactly the
new value. -/
theorem headerGet_headerSet_self (hs : List (String × String)) (nm v : String) :
    headerGet (headerSet hs nm v) nm = some v := by
  unfold headerGet headerSet
  rw [List.find?_append]
  have h1 : (hs.filter fun p => !(lowerStr p.1 == lowerStr nm)).find?
      (fun p => lowerStr p.1 == lowerStr nm) = none := by
    rw [List.find?_eq_none]
    intro x hx
    rw [List.mem_filter] at hx
    simpa using hx.2
  rw [h1]
  simp

/-- After headerSet, every header whose name differs case-insensitively
from the one set reads exactly as before. -/
theorem headerGet_headerSet_other (hs : List (String × String))
    (nm v nm2 : String) (h : lowerStr nm2 ≠ lowerStr nm) :
    headerGet (headerSet hs nm v) nm2 = headerGet hs nm2 := by
  unfold headerGet headerSet
  rw [List.find?_append]
  have h2 : List.find? (fun p => lowerStr p.1 == lowerStr nm2) [(nm, v)] =
      none := by
    simp only [List.find?]
    rw [beq_eq_false_iff_ne.mpr (fun hc => h hc.symm)]
  rw [h2]
  rw [find?_filter_keep _ _ ?_ hs]
  · cases hs.find? (fun p => lowerStr p.1 == lowerStr nm2) <;> rfl
  · intro x hx
    rw [beq_iff_eq] at hx
    rw [Bool.not_eq_true', beq_eq_false_iff_ne]
    rw [hx]
    exact fun hc => h hc

/-- C5: a fetch event whose request URL starts with the archive origin is
answered with a response carrying the same body, status and status text
as the real network response, whose Access-Control-Allow-Origin header is
* regardless of what the network response carried for it, and whose
other headers all read exactly as in the network response; a fetch event
for any other URL passes through unmodified. -/
theorem c5_cors_rewrite (network : SWRequest → NetResponse)
    (req : SWRequest) :
    (strStartsWith req.url "https://archive.today/" = true →
      ∃ resp, swFetchEvent network req = some resp ∧
        resp.body = (network req).body ∧
        resp.status = (network req).status ∧
        resp.statusText = (network req).statusText ∧
        headerGet resp.headers "Access-Control-Allow-Origin" = some "*" ∧
        ∀ nm, lowerStr nm ≠ lowerStr "Access-Control-Allow-Origin" →
          headerGet resp.headers nm = headerGet (network req).headers nm) ∧
    (strStartsWith req.url "https://archive.today/" = false →
      swFetchEvent network req = none) := by
  constructor
  · intro hpre
    refine ⟨handleRequest network req, ?_, rfl, rfl, rfl, ?_, ?_⟩
    · unfold swFetchEvent
      rw [if_pos hpre]
    · exact headerGet_headerSet_self (network req).headers _ "*"
    · intro nm hnm
      exact headerGet_headerSet_other (network req).headers _ "*" nm hnm
  · intro hpre
    unfold swFetchEvent
    rw [if_neg (by simp [hpre])]

/-- Network used by the CORS witness: the origin response already carries
a restrictive Access-Control-Allow-Origin header and one extra header. -/
def restrictiveNetwork : SWRequest → NetResponse := fun _ =>
  { status := 200, statusText := "OK",
    headers := [("Access-Control-Allow-Origin", "https://only.example"),
                ("x-archive", "1")],
    body := "<p>a</p>" }

/-- Witness for C5: a request to the archive origin is intercepted and
the rewritten response reads * for Access-Control-Allow-Origin even
though the origin response restricted it, while the x-archive header
still reads its original value. -/
theorem c5_witness :
    ∃ resp, swFetchEvent restrictiveNetwork
        { url := "https://archive.today/abc" } = some resp ∧
      headerGet resp.headers "Access-Control-Allow-Origin" = some "*" ∧
      headerGet resp.headers "x-archive" = some "1" := by
  obtain ⟨resp, hev, _, _, _, hacao, hother⟩ :=
    (c5_cors_rewrite restrictiveNetwork
      { url := "https://archive.today/abc" }).1 (by decide)
  refine ⟨resp, hev, hacao, ?_⟩
  rw [hother "x-archive" (by decide)]
  decide

/-! Claim theorems about the sanitizer. -/

/-- No element remaining after sanitization is in the removal set. -/
theorem sanitize_no_banned :
    ∀ (f : HForest) (e : String × List (String × String)),
      e ∈ elemsF (sanitizeF f) → isBannedE e = false
  | .nil, e, h => by simp [sanitizeF, elemsF] at h
  | .cons (.text s) r, e, h =>
    sanitize_no_banned r e (by simpa [sanitizeF, elemsF] using h)
  | .cons (.elem t a c) r, e, h => by
    cases hb : isBanned t a with
    | true =>
      refine sanitize_no_banned r e ?_
      simpa [sanitizeF, hb] using h
    | false =>
      rw [show sanitizeF (.cons (.elem t a c) r) =
          .cons (.elem t a (sanitizeF c)) (sanitizeF r) from by
        simp [sanitizeF, hb]] at h
      have h' : e = (t, a) ∨ e ∈ elemsF (sanitizeF c) ∨
          e ∈ elemsF (sanitizeF r) := by
        simpa [elemsF] using h
      rcases h' with rfl | h3 | h3
      · simpa [isBannedE] using hb
      · exact sanitize_no_banned c e h3
      · exact sanitize_no_banned r e h3

/-- Under the parser invariant that banned nodes contain no elements,
sanitization keeps exactly the non-banned elements, in document
order. -/
theorem sanitize_preserves :
    ∀ f : HForest, bannedChildless f = true →
      elemsF (sanitizeF f) = (elemsF f).filter (fun e => !isBannedE e)
  | .nil, _ => rfl
  | .cons (.text s) r, h => by
    simp only [sanitizeF, elemsF]
    exact sanitize_preserves r (by simpa [bannedChildless] using h)
  | .cons (.elem t a c) r, h => by
    simp only [bannedChildless, Bool.and_eq_true] at h
    obtain ⟨h1, h2⟩ := h
    cases hb : isBanned t a with
    | true =>
      have hc : elemsF c = [] := by simpa [hb] using h1
      rw [show sanitizeF (.cons (.elem t a c) r) = sanitizeF r from by
        simp [sanitizeF, hb]]
      rw [sanitize_preserves r h2]
      simp [elemsF, List.filter_cons, isBannedE, hb, hc]
    | false =>
      have hcc : bannedChildless c = true := by simpa [hb] using h1
      rw [show sanitizeF (.cons (.elem t a c) r) =
          .cons (.elem t a (sanitizeF c)) (sanitizeF r) from by
        simp [sanitizeF, hb]]
      simp [elemsF, List.filter_cons, List.filter_append, isBannedE, hb,
        sanitize_preserves c hcc, sanitize_preserves r h2]

/-- C6: after sanitization no script, style or stylesheet-link element
remains anywhere in the fragment, and - under the parser invariant that
these nodes carry no element children, which holds of all HTML-parser
output since script and style hold raw text and link is void - every
other element of the input fragment is preserved, in its original
document order. -/
theorem c6_sanitizer_removes_and_preserves (f : HForest)
    (hpar : bannedChildless f = true) :
    (∀ e ∈ elemsF (sanitizeF f), isBannedE e = false) ∧
    elemsF (sanitizeF f) = (elemsF f).filter (fun e => !isBannedE e) :=
  ⟨fun e he => sanitize_no_banned f e he, sanitize_preserves f hpar⟩

/-- Parsed fragment used by the C6 witness: a heading, a script with
text content, a style with text content, a stylesheet link and a
paragraph. -/
def sampleFragment : HForest :=
  .cons (.elem "h1" [] (.cons (.text "title") .nil))
    (.cons (.elem "script" [] (.cons (.text "alert(1)") .nil))
      (.cons (.elem "style" [] (.cons (.text "p color red") .nil))
        (.cons (.elem "link" [("rel", "stylesheet"), ("href", "a.css")] .nil)
          (.cons (.elem "p" [] (.cons (.text "hi") .nil)) .nil))))

/-- Witness for C6: on the sample fragment the sanitized element list is
exactly the non-banned elements of the input in order. -/
theorem c6_witness :
    elemsF (sanitizeF sampleFragment) =
      (elemsF sampleFragment).filter (fun e => !isBannedE e) :=
  (c6_sanitizer_removes_and_preserves sampleFragment (by decide)).2

/-! Claim theorems about escaping in the error block. -/

/-- Every ampersand in the list opens one of the five escape entities
escapeHTML can emit: no raw ampersand remains. -/
def noRawAmp (l : List Char) : Bool :=
  match l with
  | [] => true
  | c :: r =>
    if c = '&' then
      if r.take 4 = ['a', 'm', 'p', ';'] then noRawAmp (r.drop 4)
      else if r.take 3 = ['l', 't', ';'] then noRawAmp (r.drop 3)
      else if r.take 3 = ['g', 't', ';'] then noRawAmp (r.drop 3)
      else if r.take 4 = ['#', '3', '9', ';'] then noRawAmp (r.drop 4)
      else if r.take 5 = ['q', 'u', 'o', 't', ';'] then noRawAmp (r.drop 5)
      else false
    else noRawAmp r
termination_by l.length
decreasing_by
  all_goals simp only [List.length_cons, List.length_drop]
  all_goals omega

theorem noRawAmp_escChar_append (c : Char) (l : List Char)
    (h : noRawAmp l = true) : noRawAmp (escChar c ++ l) = true := by
  by_cases h1 : c = '&'
  · subst h1; rw [show escChar '&' = ['&', 'a', 'm', 'p', ';'] from by decide]
    simp [noRawAmp, h]
  · by_cases h2 : c = '<'
    · subst h2; rw [show escChar '<' = ['&', 'l', 't', ';'] from by decide]
      simp [noRawAmp, h]
    · by_cases h3 : c = '>'
      · subst h3; rw [show escChar '>' = ['&', 'g', 't', ';'] from by decide]
        simp [noRawAmp, h]
      · by_cases h4 : c = Char.ofNat 39
        · subst h4
          rw [show escChar (Char.ofNat 39) = ['&', '#', '3', '9', ';'] from by
            decide]
          simp [noRawAmp, h]
        · by_cases h5 : c = Char.ofNat 34
          · subst h5
            rw [show escChar (Char.ofNat 34) =
                ['&', 'q', 'u', 'o', 't', ';'] from by decide]
            simp [noRawAmp, h]
          · rw [show escChar c = [c] from by
              simp [escChar, h1, h2, h3, h4, h5]]
            simp only [List.cons_append, List.nil_append]
            rw [show noRawAmp (c :: l) = noRawAmp l from by
              conv_lhs => rw [noRawAmp]
              rw [if_neg h1]]
            exact h

theorem noRawAmp_escList : ∀ l : List Char, noRawAmp (escList l) = true
  | [] => by simp [escList, noRawAmp]
  | c :: r => by
    simp only [escList]
    exact noRawAmp_escChar_append c _ (noRawAmp_escList r)

theorem lt_not_mem_escChar (c : Char) : '<' ∉ escChar c := by
  unfold escChar
  split_ifs with ha hb hc hd he <;> simp_all
  exact Ne.symm hb

theorem lt_not_mem_escList : ∀ l : List Char, '<' ∉ escList l
  | [] => by simp [escList]
  | c :: r => by
    simp only [escList, List.mem_append]
    rintro (h | h)
    · exact lt_not_mem_escChar c h
    · exact lt_not_mem_escList r h

/-- The escape sequence of any character of the input occurs inside the
escaped output. -/
theorem escChar_infix_escList :
    ∀ (l : List Char) (c : Char), c ∈ l → escChar c <:+: escList l
  | c0 :: r, c, h => by
    rcases List.mem_cons.mp h with rfl | h2
    · exact (List.prefix_append (escChar c) (escList r)).isInfix
    · obtain ⟨s, t, hst⟩ := escChar_infix_escList r c h2
      exact ⟨escChar c0 ++ s, t, by simp [escList, List.append_assoc, hst]⟩

/-- C9: when the error context URL contains a less-than sign and an
ampersand, the rendered error block contains the escaped sequences of
both; the escaped URL value itself contains no raw less-than sign and
every ampersand in it opens an escape entity; and the block is exactly
the template with code, message and URL each inserted through
escapeHTML. -/
theorem c9_error_block_escapes (code url : String)
    (h1 : '<' ∈ url.data) (h2 : '&' ∈ url.data) :
    strContains (displayErrorHTML code (some url)) "&lt;" = true ∧
    strContains (displayErrorHTML code (some url)) "&amp;" = true ∧
    '<' ∉ (escapeHTML url).data ∧
    noRawAmp (escapeHTML url).data = true ∧
    displayErrorHTML code (some url) =
      "\n        <strong>Error:</strong> " ++
        (escapeHTML code ++
          ("<br>\n        <span>" ++
            (escapeHTML (errMessage code) ++
              ("</span>\n        " ++
                (("<br><strong>URL:</strong> " ++ escapeHTML url) ++
                  "\n    "))))) := by
  have hne : url ≠ "" := by
    intro hc
    subst hc
    simp at h1
  have hseg : urlSegment (some url) =
      "<br><strong>URL:</strong> " ++ escapeHTML url := by
    simp [urlSegment, hne]
  have hsub : (escapeHTML url).data <:+:
      (displayErrorHTML code (some url)).data := by
    simp only [displayErrorHTML, hseg]
    refine ⟨("\n        <strong>Error:</strong> " ++
      (escapeHTML code ++
        ("<br>\n        <span>" ++
          (escapeHTML (errMessage code) ++
            ("</span>\n        " ++ "<br><strong>URL:</strong> "))))).data,
      "\n    ".data, ?_⟩
    simp [List.append_assoc]
  have hlt : ['&', 'l', 't', ';'] <:+: escList url.data := by
    have h := escChar_infix_escList url.data '<' h1
    rwa [show escChar '<' = ['&', 'l', 't', ';'] from by decide] at h
  have hamp : ['&', 'a', 'm', 'p', ';'] <:+: escList url.data := by
    have h := escChar_infix_escList url.data '&' h2
    rwa [show escChar '&' = ['&', 'a', 'm', 'p', ';'] from by decide] at h
  refine ⟨?_, ?_, lt_not_mem_escList url.data, noRawAmp_escList url.data, ?_⟩
  · exact decide_eq_true (hlt.trans hsub)
  · exact decide_eq_true (hamp.trans hsub)
  · simp only [displayErrorHTML, hseg]

/-- Witness for C9: on the concrete context URL a<b&c the rendered
block contains both escape sequences. -/
theorem c9_witness :
    strContains (displayErrorHTML "invalid_url" (some "a<b&c")) "&lt;" = true ∧
    strContains (displayErrorHTML "invalid_url" (some "a<b&c")) "&amp;" =
      true := by
  have h := c9_error_block_escapes "invalid_url" "a<b&c" (by decide) (by decide)
  exact ⟨h.1, h.2.1⟩

end Proxify
